import Mathlib

set_option maxHeartbeats 1000000

/-!
Verification development for the Windsurf recent-projects Raycast command
(`src/recent-projects.tsx`).

The source is TypeScript operating on the untyped result of `JSON.parse`,
so the embedding models JavaScript semantics explicitly:

* `JSON` is the tree of parsed JSON values.
* A property access `a.b` on a JavaScript value either throws a `TypeError`
  (when `a` is `null` or `undefined`) or yields a value or `undefined`;
  we model values-or-undefined as `Option JSON` (`none` = `undefined`) and
  throwing computations in `Except Unit`.
* Optional chaining `a?.b` never throws; it is the total `navO`.
* JavaScript truthiness is `truthy` / `truthyO`.
* `getRecentProjects` wraps its whole body in `try/catch` returning `[]`,
  modelled by `runExtract`, so the Lean function is total: no exception
  escapes the routine.
-/

inductive JSON : Type where
  | null : JSON
  | bool : Bool → JSON
  | num : Int → JSON
  | str : String → JSON
  | arr : List JSON → JSON
  | obj : List (String × JSON) → JSON

/-- Field lookup in a parsed JSON object (keys are unique after `JSON.parse`). -/
def JSON.lookupField : List (String × JSON) → String → Option JSON
  | [], _ => none
  | (k, v) :: rest, key => if k == key then some v else JSON.lookupField rest key

/-- JavaScript truthiness of a JSON value. -/
def JSON.truthy : JSON → Bool
  | JSON.null => false
  | JSON.bool b => b
  | JSON.num n => !(n == 0)
  | JSON.str s => !(s == "")
  | JSON.arr _ => true
  | JSON.obj _ => true

/-- Truthiness of a value-or-undefined (`undefined` is falsy). -/
def truthyO : Option JSON → Bool
  | none => false
  | some v => v.truthy

/-- Optional-chained property access `a?.b`: total, `undefined` on any miss.
For a known non-null receiver it agrees with plain access. -/
def navO : Option JSON → String → Option JSON
  | some (JSON.obj fs), key => JSON.lookupField fs key
  | _, _ => none

/-- Plain property access `a.b`: throws `TypeError` when the receiver is
`null` or `undefined`, otherwise yields the field or `undefined`. -/
def jsGet : Option JSON → String → Except Unit (Option JSON)
  | none, _ => Except.error ()
  | some JSON.null, _ => Except.error ()
  | some (JSON.obj fs), key => Except.ok (JSON.lookupField fs key)
  | some _, _ => Except.ok none

/-- Is the value a present JSON object (record)? -/
def isObjO : Option JSON → Bool
  | some (JSON.obj _) => true
  | _ => false

/-- Is the value a present JSON array? -/
def isArrO : Option JSON → Bool
  | some (JSON.arr _) => true
  | _ => false

/-- Is the value a present JSON string? -/
def isStrO : Option JSON → Bool
  | some (JSON.str _) => true
  | _ => false

/-- Is the value a present non-empty JSON string? -/
def isNonemptyStrO : Option JSON → Bool
  | some (JSON.str s) => !(s == "")
  | _ => false

/-- Is the value the JSON `null`? -/
def isNull : JSON → Bool
  | JSON.null => true
  | _ => false

/-- JavaScript `typeof v === "object"` (true for objects, arrays and `null`). -/
def typeofObject : Option JSON → Bool
  | some (JSON.obj _) => true
  | some (JSON.arr _) => true
  | some JSON.null => true
  | _ => false

/-- Calling an array method (`find` / `filter`) on a non-array throws. -/
def asArray : Option JSON → Except Unit (List JSON)
  | some (JSON.arr xs) => Except.ok xs
  | _ => Except.error ()

/-- `Array.prototype.find` with a predicate that may throw. -/
def findE (p : JSON → Except Unit Bool) : List JSON → Except Unit (Option JSON)
  | [] => Except.ok none
  | x :: xs =>
    match p x with
    | Except.error e => Except.error e
    | Except.ok true => Except.ok (some x)
    | Except.ok false => findE p xs

/-- `Array.prototype.filter` with a predicate that may throw. -/
def filterE (p : JSON → Except Unit Bool) : List JSON → Except Unit (List JSON)
  | [] => Except.ok []
  | x :: xs =>
    match p x with
    | Except.error e => Except.error e
    | Except.ok b =>
      match filterE p xs with
      | Except.error e => Except.error e
      | Except.ok rest => Except.ok (if b then x :: rest else rest)

/-- The extracted result record (interface `RecentProject`).
`uri` and `path` hold whatever JavaScript value `item.uri.path` evaluated to
(`none` = `undefined`), `label` is always a string. -/
structure RecentProject : Type where
  uri : Option JSON
  label : String
  path : Option JSON

/-- `Array.prototype.map` with a body that may throw. -/
def mapE (f : JSON → Except Unit RecentProject) : List JSON → Except Unit (List RecentProject)
  | [] => Except.ok []
  | x :: xs =>
    match f x with
    | Except.error e => Except.error e
    | Except.ok y =>
      match mapE f xs with
      | Except.error e => Except.error e
      | Except.ok rest => Except.ok (y :: rest)

/-- `label.split('/')` — JavaScript split on a single-character separator. -/
def splitSlashAux : List Char → List Char → List String
  | [], acc => [String.mk acc.reverse]
  | c :: cs, acc =>
    if c == '/' then String.mk acc.reverse :: splitSlashAux cs []
    else splitSlashAux cs (c :: acc)

def jsSplitSlash (s : String) : List String := splitSlashAux s.data []

/-- `parts.pop() || ''`: last element of the split (the split result is never
empty), with the falsy empty string collapsed to `''`. -/
def jsPopOrEmpty (parts : List String) : String :=
  match parts.getLast? with
  | some t => if t == "" then "" else t
  | none => ""

/-- `label.split('/').pop() || ''` — source line 116. -/
def jsLastSegment (s : String) : String := jsPopOrEmpty (jsSplitSlash s)

/-- Predicate of the `fileMenu.find` call (source lines 89–93):
`item.id === "submenuitem.MenubarRecentMenu" && item.label === "Open &&Recent"`. -/
def isRecentMenuItem (item : JSON) : Except Unit Bool :=
  match jsGet (some item) "id" with
  | Except.error e => Except.error e
  | Except.ok idVal =>
    match idVal with
    | some (JSON.str s) =>
      if s == "submenuitem.MenubarRecentMenu" then
        match jsGet (some item) "label" with
        | Except.error e => Except.error e
        | Except.ok labelVal =>
          match labelVal with
          | some (JSON.str t) => Except.ok (t == "Open &&Recent")
          | _ => Except.ok false
      else Except.ok false
    | _ => Except.ok false

/-- Predicate of the first filter (source line 105): `item.id === 'openRecentFolder'`. -/
def isOpenRecentFolder (item : JSON) : Except Unit Bool :=
  match jsGet (some item) "id" with
  | Except.error e => Except.error e
  | Except.ok idVal =>
    match idVal with
    | some (JSON.str s) => Except.ok (s == "openRecentFolder")
    | _ => Except.ok false

/-- Predicate of the second filter (source lines 106–109):
`item.uri && typeof item.uri === "object"`. -/
def hasObjectUri (item : JSON) : Except Unit Bool :=
  match jsGet (some item) "uri" with
  | Except.error e => Except.error e
  | Except.ok uriVal => Except.ok (truthyO uriVal && typeofObject uriVal)

/-- Body of the `.map` (source lines 110–119): reads `item.uri.path` and
`item.label.split('/').pop() || ''`; calling `.split` on a non-string
(including `undefined` for an absent label) throws. -/
def toRecentProject (item : JSON) : Except Unit RecentProject :=
  match jsGet (some item) "uri" with
  | Except.error e => Except.error e
  | Except.ok uriVal =>
    match jsGet uriVal "path" with
    | Except.error e => Except.error e
    | Except.ok filePath =>
      match jsGet (some item) "label" with
      | Except.error e => Except.error e
      | Except.ok labelVal =>
        match labelVal with
        | some (JSON.str l) =>
          Except.ok { uri := filePath, label := jsLastSegment l, path := filePath }
        | _ => Except.error ()

/-- The filter–filter–map pipeline on `recentMenuItem.submenu.items`
(source lines 104–119). -/
def processItems (ys : List JSON) : Except Unit (List RecentProject) :=
  match filterE isOpenRecentFolder ys with
  | Except.error e => Except.error e
  | Except.ok kept =>
    match filterE hasObjectUri kept with
    | Except.error e => Except.error e
    | Except.ok withUri => mapE toRecentProject withUri

/-- Handling of the `find` result (source lines 95–119):
`if (!recentMenuItem || !recentMenuItem.submenu?.items) return [];`
then run the pipeline on `recentMenuItem.submenu.items`. -/
def processRecentMenuItem (rOpt : Option JSON) : Except Unit (List RecentProject) :=
  if !truthyO rOpt then Except.ok []
  else
    match jsGet rOpt "submenu" with
    | Except.error e => Except.error e
    | Except.ok submenuVal =>
      let subItemsVal := navO submenuVal "items"
      if !truthyO subItemsVal then Except.ok []
      else
        match asArray subItemsVal with
        | Except.error e => Except.error e
        | Except.ok ys => processItems ys

/-- The parsing stage of `getRecentProjects` (source lines 80–119), applied to
the already-parsed storage document: navigate
`storageData.lastKnownMenubarData?.menus?.File?.items`, find the recent menu,
process its submenu. Exceptions propagate to the `catch`. -/
def extractRecentProjects (storageData : JSON) : Except Unit (List RecentProject) :=
  match jsGet (some storageData) "lastKnownMenubarData" with
  | Except.error e => Except.error e
  | Except.ok lkmd =>
    let fileMenu := navO (navO (navO lkmd "menus") "File") "items"
    if !truthyO fileMenu then Except.ok []
    else
      match asArray fileMenu with
      | Except.error e => Except.error e
      | Except.ok xs =>
        match findE isRecentMenuItem xs with
        | Except.error e => Except.error e
        | Except.ok rOpt => processRecentMenuItem rOpt

/-- The `catch` of `getRecentProjects` (source lines 120–123): any exception
yields `[]`. -/
def runExtract (e : Except Unit (List RecentProject)) : List RecentProject :=
  match e with
  | Except.ok l => l
  | Except.error _ => []

/-- `getRecentProjects` on a parsed document: total — the `try/catch` means no
exception escapes. -/
def getRecentProjectsFrom (storageData : JSON) : List RecentProject :=
  runExtract (extractRecentProjects storageData)

/-- Full `getRecentProjects` (source lines 69–124): `storageFile` is the file
contents when the storage file exists (`fs.existsSync`), `jsonParse` is the
external `JSON.parse`, whose failure is caught like any other exception. -/
def getRecentProjects (storageFile : Option String)
    (jsonParse : String → Except Unit JSON) : List RecentProject :=
  match storageFile with
  | none => []
  | some raw =>
    match jsonParse raw with
    | Except.error _ => []
    | Except.ok j => getRecentProjectsFrom j

/-- The navigation chain `storageData.lastKnownMenubarData?.menus?.File?.items`
as a total function (source line 82). -/
def navFileMenuItems (storageData : JSON) : Option JSON :=
  navO (navO (navO (navO (some storageData) "lastKnownMenubarData") "menus") "File") "items"

/-- Pure form of the first filter predicate. -/
def idIsOpenRecentFolder (y : JSON) : Bool :=
  match navO (some y) "id" with
  | some (JSON.str s) => s == "openRecentFolder"
  | _ => false

/-- Pure form of the second filter predicate. -/
def hasObjectUriB (y : JSON) : Bool :=
  truthyO (navO (some y) "uri") && typeofObject (navO (some y) "uri")

/-- The combined filter as the claims state it: `id` equals
`"openRecentFolder"` and `uri` is present and is an object. -/
def keepItem (y : JSON) : Bool :=
  idIsOpenRecentFolder y && isObjO (navO (some y) "uri")

/-- `item.uri.path` as a total navigation. -/
def uriPath (y : JSON) : Option JSON := navO (navO (some y) "uri") "path"

/-- `item.label` as a total navigation. -/
def labelOf (y : JSON) : Option JSON := navO (some y) "label"

/-- Pure form of the `.map` body, meaningful on items whose `label` is a
string and whose `uri` is an object. -/
def mkRecentProject (y : JSON) : RecentProject :=
  { uri := uriPath y
    label := jsLastSegment (match labelOf y with
      | some (JSON.str l) => l
      | _ => "")
    path := uriPath y }

/-- A submenu item of the shape the source declares for `MenuItem`:
an object whose `label` is a string and whose `uri` is absent, a string, or
an object. -/
def wfItem (y : JSON) : Bool :=
  match y with
  | JSON.obj fs =>
    (match JSON.lookupField fs "label" with
     | some (JSON.str _) => true
     | _ => false)
    && (match JSON.lookupField fs "uri" with
        | none => true
        | some (JSON.str _) => true
        | some (JSON.obj _) => true
        | _ => false)
  | _ => false

/-- Observable effects of `openProjectInWindsurf` (source lines 48–66). -/
inductive Effect : Type where
  | execCommand : String → Effect
  | toastSuccess : String → Effect
  | toastFailure : String → String → Effect
  | closeMainWindow : Effect

/-- The shell command built on source line 50: raw interpolation of the path
between double quotes, no escaping. -/
def windsurfOpenCommand (projectPath : String) : String :=
  "open -a Windsurf \"" ++ projectPath ++ "\""

/-- `openProjectInWindsurf` (source lines 48–66) as a trace of effects.
`execResult` is the outcome of the external `exec`; the `try/catch` means the
function itself always returns normally. -/
def openProjectInWindsurf (execResult : String → Except Unit Unit)
    (projectPath : String) : List Effect :=
  match execResult (windsurfOpenCommand projectPath) with
  | Except.ok _ =>
    [Effect.execCommand (windsurfOpenCommand projectPath),
     Effect.toastSuccess "プロジェクトを開きました",
     Effect.closeMainWindow]
  | Except.error _ =>
    [Effect.execCommand (windsurfOpenCommand projectPath),
     Effect.toastFailure "エラー" "プロジェクトを開けませんでした"]

/-- React state of `Command` (source lines 127–128). -/
structure CommandState : Type where
  recentProjects : List RecentProject
  isLoading : Bool

/-- Initial state (source lines 127–128). -/
def initialCommandState : CommandState :=
  { recentProjects := [], isLoading := true }

/-- State after the one-shot `useEffect` (source lines 130–134). -/
def commandStateAfterEffect (storageFile : Option String)
    (jsonParse : String → Except Unit JSON) : CommandState :=
  { recentProjects := getRecentProjects storageFile jsonParse, isLoading := false }

/-- What `Command` renders (source lines 136–169). -/
inductive RenderedView : Type where
  | emptyView : String → String → RenderedView
  | projectRows : List RecentProject → RenderedView

/-- The render branch (source line 138): empty view exactly when the list is
empty and loading has finished. -/
def renderCommand (s : CommandState) : RenderedView :=
  if s.recentProjects.length == 0 && !s.isLoading then
    RenderedView.emptyView "最近使用したプロジェクトがありません"
      "Windsurfでプロジェクトを開くと、ここに表示されます"
  else RenderedView.projectRows s.recentProjects

/-! ### Concrete storage documents used as witnesses and counterexamples -/

/-- A recent-menu item wrapping the given submenu items. -/
def sampleRecentMenu (items : List JSON) : JSON :=
  JSON.obj [("id", JSON.str "submenuitem.MenubarRecentMenu"),
    ("label", JSON.str "Open &&Recent"),
    ("submenu", JSON.obj [("items", JSON.arr items)])]

/-- A full storage document whose File menu contains the given entries. -/
def sampleStorageOf (fileMenuEntries : List JSON) : JSON :=
  JSON.obj [("lastKnownMenubarData", JSON.obj [("menus", JSON.obj [("File",
    JSON.obj [("items", JSON.arr fileMenuEntries)])])])]

/-- A storage document with the given recent submenu items. -/
def sampleStorage (items : List JSON) : JSON :=
  sampleStorageOf [sampleRecentMenu items]

/-- A well-formed recent-folder entry (the claim C3 round-trip example). -/
def itemAlice : JSON :=
  JSON.obj [("id", JSON.str "openRecentFolder"), ("label", JSON.str "alice/dev/proj"),
    ("uri", JSON.obj [("$mid", JSON.num 1), ("path", JSON.str "/Users/alice/dev/proj"),
      ("scheme", JSON.str "file")])]

/-- An entry dropped by the id filter. -/
def itemWrongId : JSON :=
  JSON.obj [("id", JSON.str "openRecentFile"), ("label", JSON.str "b/file"),
    ("uri", JSON.obj [("path", JSON.str "/b/file")])]

/-- An entry dropped by the uri filter (string-valued uri). -/
def itemStringUri : JSON :=
  JSON.obj [("id", JSON.str "openRecentFolder"), ("label", JSON.str "c/proj"),
    ("uri", JSON.str "file:///c/proj")]

/-- A surviving entry whose `uri.path` is the empty string. -/
def itemEmptyPath : JSON :=
  JSON.obj [("id", JSON.str "openRecentFolder"), ("label", JSON.str ""),
    ("uri", JSON.obj [("path", JSON.str "")])]

/-- A surviving entry with no `label` field at all. -/
def itemNoLabel : JSON :=
  JSON.obj [("id", JSON.str "openRecentFolder"),
    ("uri", JSON.obj [("path", JSON.str "/nolabel")])]

/-- A surviving entry whose `label` is the empty string. -/
def itemEmptyLabel : JSON :=
  JSON.obj [("id", JSON.str "openRecentFolder"), ("label", JSON.str ""),
    ("uri", JSON.obj [("path", JSON.str "/empty/label")])]

/-- A File-menu entry that is not the recent menu (dropped by `find`). -/
def itemOtherMenu : JSON :=
  JSON.obj [("id", JSON.str "submenuitem.MenubarFileMenu"),
    ("label", JSON.str "New")]

/-- A recent-menu item carrying no `submenu` field at all. -/
def recentMenuNoSubmenu : JSON :=
  JSON.obj [("id", JSON.str "submenuitem.MenubarRecentMenu"),
    ("label", JSON.str "Open &&Recent")]

/-- An `exec` oracle that always succeeds. -/
def execAlwaysOk : String → Except Unit Unit := fun _ => Except.ok ()

/-- An `exec` oracle that always fails. -/
def execAlwaysFails : String → Except Unit Unit := fun _ => Except.error ()

/-- A `JSON.parse` oracle returning a fixed document. -/
def parseConst (j : JSON) : String → Except Unit JSON := fun _ => Except.ok j

/-! ### Basic lemmas about the JavaScript-semantics helpers -/

theorem navO_of_not_obj (v : Option JSON) (k : String) (h : isObjO v = false) :
    navO v k = none := by
  cases v with
  | none => rfl
  | some j => cases j <;> first | rfl | simp [isObjO] at h

theorem jsGet_of_nonnull (j : JSON) (k : String) (h : isNull j = false) :
    jsGet (some j) k = Except.ok (navO (some j) k) := by
  cases j <;> first | rfl | simp [isNull] at h

theorem asArray_of_not_arr (v : Option JSON) (h : isArrO v = false) :
    asArray v = Except.error () := by
  cases v with
  | none => rfl
  | some j => cases j <;> first | rfl | simp [isArrO] at h

theorem isRecentMenuItem_ok_true_obj (r : JSON) (h : isRecentMenuItem r = Except.ok true) :
    ∃ fs, r = JSON.obj fs := by
  cases r <;> first
    | exact ⟨_, rfl⟩
    | simp [isRecentMenuItem, jsGet] at h

theorem navFileMenuItems_obj (j : JSON) (v : JSON) (h : navFileMenuItems j = some v) :
    ∃ fs, j = JSON.obj fs := by
  cases j <;> first
    | exact ⟨_, rfl⟩
    | simp [navFileMenuItems, navO] at h

/-! ### Lemmas about the effectful array combinators -/

theorem findE_of_all_false (p : JSON → Except Unit Bool) (xs : List JSON)
    (h : ∀ x ∈ xs, p x = Except.ok false) : findE p xs = Except.ok none := by
  induction xs with
  | nil => rfl
  | cons a t ih =>
    have ha := h a (List.mem_cons_self a t)
    simp only [findE, ha]
    exact ih (fun x hx => h x (List.mem_cons_of_mem a hx))

theorem findE_first (p : JSON → Except Unit Bool) (pre : List JSON) (r : JSON)
    (rest : List JSON) (hpre : ∀ x ∈ pre, p x = Except.ok false)
    (hr : p r = Except.ok true) :
    findE p (pre ++ r :: rest) = Except.ok (some r) := by
  induction pre with
  | nil => simp only [List.nil_append, findE, hr]
  | cons a t ih =>
    have ha := hpre a (List.mem_cons_self a t)
    simp only [List.cons_append, findE, ha]
    exact ih (fun x hx => hpre x (List.mem_cons_of_mem a hx))

theorem filterE_pure (p : JSON → Except Unit Bool) (q : JSON → Bool) (xs : List JSON)
    (h : ∀ x ∈ xs, p x = Except.ok (q x)) :
    filterE p xs = Except.ok (xs.filter q) := by
  induction xs with
  | nil => rfl
  | cons a t ih =>
    have ha := h a (List.mem_cons_self a t)
    have ht := ih (fun x hx => h x (List.mem_cons_of_mem a hx))
    simp only [filterE, ha, ht, List.filter_cons]

theorem mapE_pure (f : JSON → Except Unit RecentProject) (g : JSON → RecentProject)
    (xs : List JSON) (h : ∀ x ∈ xs, f x = Except.ok (g x)) :
    mapE f xs = Except.ok (xs.map g) := by
  induction xs with
  | nil => rfl
  | cons a t ih =>
    have ha := h a (List.mem_cons_self a t)
    have ht := ih (fun x hx => h x (List.mem_cons_of_mem a hx))
    simp only [mapE, ha, ht, List.map_cons]

theorem mapE_error_of_mem (f : JSON → Except Unit RecentProject) (xs : List JSON)
    (y : JSON) (hy : y ∈ xs) (hf : f y = Except.error ()) :
    mapE f xs = Except.error () := by
  induction xs with
  | nil => cases hy
  | cons a t ih =>
    rcases List.mem_cons.mp hy with h | h
    · subst h
      simp only [mapE, hf]
    · cases hfa : f a with
      | error e => simp only [mapE, hfa]
      | ok v => simp only [mapE, hfa, ih h]

theorem filterE_mem (p : JSON → Except Unit Bool) (xs : List JSON) (l : List JSON)
    (y : JSON) (h : filterE p xs = Except.ok l) (hy : y ∈ xs)
    (hp : p y = Except.ok true) : y ∈ l := by
  induction xs generalizing l with
  | nil => cases hy
  | cons a t ih =>
    rw [filterE] at h
    cases hpa : p a with
    | error e => rw [hpa] at h; cases h
    | ok b =>
      rw [hpa] at h
      cases hft : filterE p t with
      | error e => rw [hft] at h; cases h
      | ok rest =>
        rw [hft] at h
        have hl : (if b then a :: rest else rest) = l := Except.ok.inj h
        rcases List.mem_cons.mp hy with hya | hyt
        · subst hya
          rw [hp] at hpa
          have hb : b = true := (Except.ok.inj hpa).symm
          subst hb
          rw [if_pos rfl] at hl
          exact hl ▸ List.mem_cons_self y rest
        · have hyr : y ∈ rest := ih rest hft hyt
          cases b with
          | true => rw [if_pos rfl] at hl; exact hl ▸ List.mem_cons_of_mem a hyr
          | false => rw [if_neg (by simp)] at hl; exact hl ▸ hyr

/-! ### Pure characterizations of the filter and map bodies -/

theorem wfItem_not_null (y : JSON) (h : wfItem y = true) : isNull y = false := by
  cases y <;> first | rfl | simp [wfItem] at h

theorem isOpenRecentFolder_pure (x : JSON) (h : isNull x = false) :
    isOpenRecentFolder x = Except.ok (idIsOpenRecentFolder x) := by
  cases x with
  | null => simp [isNull] at h
  | obj fs =>
    simp only [isOpenRecentFolder, idIsOpenRecentFolder, jsGet, navO]
    cases JSON.lookupField fs "id" with
    | none => rfl
    | some v => cases v <;> rfl
  | bool b => rfl
  | num n => rfl
  | str s => rfl
  | arr l => rfl

theorem hasObjectUri_pure (x : JSON) (h : isNull x = false) :
    hasObjectUri x = Except.ok (hasObjectUriB x) := by
  cases x <;> first | rfl | simp [isNull] at h

theorem wf_hasObjectUriB_eq (y : JSON) (h : wfItem y = true) :
    hasObjectUriB y = isObjO (navO (some y) "uri") := by
  cases y with
  | obj fs =>
    simp only [hasObjectUriB, navO]
    cases hu : JSON.lookupField fs "uri" with
    | none => rfl
    | some v =>
      cases v with
      | str s => simp [truthyO, JSON.truthy, typeofObject, isObjO]
      | obj gs => rfl
      | null => simp [wfItem, hu] at h
      | bool b => simp [wfItem, hu] at h
      | num n => simp [wfItem, hu] at h
      | arr l => simp [wfItem, hu] at h
  | null => simp [wfItem] at h
  | bool b => simp [wfItem] at h
  | num n => simp [wfItem] at h
  | str s => simp [wfItem] at h
  | arr l => simp [wfItem] at h

theorem toRecentProject_pure (fs ufs : List (String × JSON)) (l : String)
    (hu : JSON.lookupField fs "uri" = some (JSON.obj ufs))
    (hl : JSON.lookupField fs "label" = some (JSON.str l)) :
    toRecentProject (JSON.obj fs) = Except.ok (mkRecentProject (JSON.obj fs)) := by
  simp only [toRecentProject, jsGet, hu, hl, mkRecentProject, uriPath, labelOf, navO]

theorem toRecentProject_pure_of_wf (x : JSON) (hwf : wfItem x = true)
    (hk : keepItem x = true) : toRecentProject x = Except.ok (mkRecentProject x) := by
  cases x with
  | obj fs =>
    have hobj : isObjO (navO (some (JSON.obj fs)) "uri") = true :=
      (Bool.and_eq_true_iff.mp hk).2
    simp only [navO] at hobj
    cases hu : JSON.lookupField fs "uri" with
    | none => rw [hu] at hobj; cases hobj
    | some v =>
      cases v with
      | obj ufs =>
        cases hl : JSON.lookupField fs "label" with
        | none => simp [wfItem, hl] at hwf
        | some w =>
          cases w with
          | str l => exact toRecentProject_pure fs ufs l hu hl
          | null => simp [wfItem, hl] at hwf
          | bool b => simp [wfItem, hl] at hwf
          | num n => simp [wfItem, hl] at hwf
          | arr a => simp [wfItem, hl] at hwf
          | obj o => simp [wfItem, hl] at hwf
      | null => rw [hu] at hobj; cases hobj
      | bool b => rw [hu] at hobj; cases hobj
      | num n => rw [hu] at hobj; cases hobj
      | str s => rw [hu] at hobj; cases hobj
      | arr a => rw [hu] at hobj; cases hobj
  | null => simp [wfItem] at hwf
  | bool b => simp [wfItem] at hwf
  | num n => simp [wfItem] at hwf
  | str s => simp [wfItem] at hwf
  | arr a => simp [wfItem] at hwf

theorem toRecentProject_error (y : JSON) (hnn : isNull y = false)
    (hu : hasObjectUriB y = true) (hl : isStrO (labelOf y) = false) :
    toRecentProject y = Except.error () := by
  cases y with
  | obj fs =>
    simp only [hasObjectUriB, navO] at hu
    simp only [labelOf, navO] at hl
    cases huv : JSON.lookupField fs "uri" with
    | none => rw [huv] at hu; cases hu
    | some v =>
      rw [huv] at hu
      cases v with
      | obj ufs =>
        simp only [toRecentProject, jsGet, huv]
        cases hlv : JSON.lookupField fs "label" with
        | none => rfl
        | some w => rw [hlv] at hl; cases w <;> first | rfl | simp [isStrO] at hl
      | arr a =>
        simp only [toRecentProject, jsGet, huv]
        cases hlv : JSON.lookupField fs "label" with
        | none => rfl
        | some w => rw [hlv] at hl; cases w <;> first | rfl | simp [isStrO] at hl
      | null => cases hu
      | bool b => simp [truthyO, JSON.truthy, typeofObject] at hu
      | num n => simp [truthyO, JSON.truthy, typeofObject] at hu
      | str s => simp [truthyO, JSON.truthy, typeofObject] at hu
  | null => simp [isNull] at hnn
  | bool b => simp [hasObjectUriB, navO, truthyO] at hu
  | num n => simp [hasObjectUriB, navO, truthyO] at hu
  | str s => simp [hasObjectUriB, navO, truthyO] at hu
  | arr a => simp [hasObjectUriB, navO, truthyO] at hu

/-! ### Stage lemmas for the extraction pipeline -/

theorem extract_eq_find_stage (fsTop : List (String × JSON)) (xs : List JSON)
    (hnav : navFileMenuItems (JSON.obj fsTop) = some (JSON.arr xs)) :
    extractRecentProjects (JSON.obj fsTop) =
      (match findE isRecentMenuItem xs with
       | Except.error e => Except.error e
       | Except.ok rOpt => processRecentMenuItem rOpt) := by
  have hfm : navO (navO (navO (JSON.lookupField fsTop "lastKnownMenubarData") "menus")
      "File") "items" = some (JSON.arr xs) := hnav
  simp only [extractRecentProjects, jsGet, hfm, truthyO, JSON.truthy, Bool.not_true,
    Bool.false_eq_true, if_false, asArray]

theorem extract_eq_processRecent (j : JSON) (xs : List JSON) (rOpt : Option JSON)
    (hnav : navFileMenuItems j = some (JSON.arr xs))
    (hfind : findE isRecentMenuItem xs = Except.ok rOpt) :
    extractRecentProjects j = processRecentMenuItem rOpt := by
  obtain ⟨fsTop, rfl⟩ := navFileMenuItems_obj j _ hnav
  rw [extract_eq_find_stage fsTop xs hnav, hfind]

theorem processRecent_eq_processItems (fs : List (String × JSON)) (ys : List JSON)
    (hsub : navO (navO (some (JSON.obj fs)) "submenu") "items" = some (JSON.arr ys)) :
    processRecentMenuItem (some (JSON.obj fs)) = processItems ys := by
  have hsub2 : navO (JSON.lookupField fs "submenu") "items" = some (JSON.arr ys) := hsub
  simp only [processRecentMenuItem, truthyO, JSON.truthy, Bool.not_true,
    Bool.false_eq_true, if_false, jsGet, hsub2, asArray]

theorem truthyO_obj (fs : List (String × JSON)) :
    truthyO (some (JSON.obj fs)) = true := rfl

theorem processRecent_no_items (fs : List (String × JSON))
    (hsub : isArrO (navO (navO (some (JSON.obj fs)) "submenu") "items") = false) :
    runExtract (processRecentMenuItem (some (JSON.obj fs))) = [] := by
  have hsub2 : isArrO (navO (JSON.lookupField fs "submenu") "items") = false := hsub
  cases hT : truthyO (navO (JSON.lookupField fs "submenu") "items") with
  | false => simp [processRecentMenuItem, truthyO_obj, jsGet, hT, runExtract]
  | true =>
    simp [processRecentMenuItem, truthyO_obj, jsGet, hT,
      asArray_of_not_arr _ hsub2, runExtract]

theorem getFrom_items_not_arr (j : JSON) (h : isArrO (navFileMenuItems j) = false) :
    getRecentProjectsFrom j = [] := by
  cases j with
  | null => rfl
  | bool b => rfl
  | num n => rfl
  | str s => rfl
  | arr a => rfl
  | obj fs =>
    have h2 : isArrO (navO (navO (navO (JSON.lookupField fs "lastKnownMenubarData")
        "menus") "File") "items") = false := h
    unfold getRecentProjectsFrom extractRecentProjects
    simp only [jsGet]
    cases hT : truthyO (navO (navO (navO (JSON.lookupField fs "lastKnownMenubarData")
        "menus") "File") "items") with
    | false => simp [runExtract]
    | true => simp [asArray_of_not_arr _ h2, runExtract]

theorem getFrom_eq_processItems (j : JSON) (xs pre : List JSON) (r : JSON)
    (rest ys : List JSON)
    (hnav : navFileMenuItems j = some (JSON.arr xs))
    (hsplit : xs = pre ++ r :: rest)
    (hpre : ∀ x ∈ pre, isRecentMenuItem x = Except.ok false)
    (hr : isRecentMenuItem r = Except.ok true)
    (hsub : navO (navO (some r) "submenu") "items" = some (JSON.arr ys)) :
    getRecentProjectsFrom j = runExtract (processItems ys) := by
  obtain ⟨fs, rfl⟩ := isRecentMenuItem_ok_true_obj r hr
  have hfind : findE isRecentMenuItem xs = Except.ok (some (JSON.obj fs)) := by
    rw [hsplit]
    exact findE_first isRecentMenuItem pre _ rest hpre hr
  rw [getRecentProjectsFrom, extract_eq_processRecent j xs _ hnav hfind,
    processRecent_eq_processItems fs ys hsub]

theorem processItems_wf (ys : List JSON) (hwf : ∀ y ∈ ys, wfItem y = true) :
    processItems ys = Except.ok ((ys.filter keepItem).map mkRecentProject) := by
  have h1 : filterE isOpenRecentFolder ys = Except.ok (ys.filter idIsOpenRecentFolder) :=
    filterE_pure _ _ _ (fun x hx => isOpenRecentFolder_pure x (wfItem_not_null x (hwf x hx)))
  have h2 : filterE hasObjectUri (ys.filter idIsOpenRecentFolder) =
      Except.ok ((ys.filter idIsOpenRecentFolder).filter hasObjectUriB) :=
    filterE_pure _ _ _ (fun x hx =>
      hasObjectUri_pure x (wfItem_not_null x (hwf x (List.mem_of_mem_filter hx))))
  have hcomb : (ys.filter idIsOpenRecentFolder).filter hasObjectUriB =
      ys.filter keepItem := by
    rw [List.filter_filter]
    exact List.filter_congr (fun x hx => by
      rw [wf_hasObjectUriB_eq x (hwf x hx), keepItem, Bool.and_comm])
  have h3 : mapE toRecentProject (ys.filter keepItem) =
      Except.ok ((ys.filter keepItem).map mkRecentProject) :=
    mapE_pure _ _ _ (fun x hx =>
      toRecentProject_pure_of_wf x (hwf x (List.mem_of_mem_filter hx))
        (List.of_mem_filter hx))
  simp only [processItems, h1, h2, hcomb, h3]

theorem isRecentMenuItem_obj_iff (fs : List (String × JSON)) :
    isRecentMenuItem (JSON.obj fs) = Except.ok true ↔
      (JSON.lookupField fs "id" = some (JSON.str "submenuitem.MenubarRecentMenu") ∧
       JSON.lookupField fs "label" = some (JSON.str "Open &&Recent")) := by
  simp only [isRecentMenuItem, jsGet]
  cases hid : JSON.lookupField fs "id" with
  | none => simp
  | some v =>
    cases v with
    | str s =>
      by_cases hs : s = "submenuitem.MenubarRecentMenu"
      · subst hs
        cases hlab : JSON.lookupField fs "label" with
        | none => simp [beq_iff_eq]
        | some w => cases w <;> simp [beq_iff_eq]
      · simp [beq_iff_eq, hs]
    | null => simp
    | bool b => simp
    | num n => simp
    | arr a => simp
    | obj o => simp

/-! ### Claim theorems -/

/-- C1: for every input JSON document in which any of the navigation fields
`lastKnownMenubarData`, `menus`, `File`, `items` or `submenu` is absent or not
of the expected shape, the parsing stage of `getRecentProjects` returns the
empty list. `getRecentProjectsFrom` models the routine including its
`try/catch`, and is a total function, so no exception escapes under any input. -/
theorem extract_guards_every_navigation_step (j : JSON) :
    (isObjO (navO (some j) "lastKnownMenubarData") = false →
      getRecentProjectsFrom j = []) ∧
    (isObjO (navO (navO (some j) "lastKnownMenubarData") "menus") = false →
      getRecentProjectsFrom j = []) ∧
    (isObjO (navO (navO (navO (some j) "lastKnownMenubarData") "menus") "File") = false →
      getRecentProjectsFrom j = []) ∧
    (isArrO (navFileMenuItems j) = false → getRecentProjectsFrom j = []) ∧
    (∀ xs pre r rest, navFileMenuItems j = some (JSON.arr xs) →
      xs = pre ++ r :: rest →
      (∀ x ∈ pre, isRecentMenuItem x = Except.ok false) →
      isRecentMenuItem r = Except.ok true →
      isArrO (navO (navO (some r) "submenu") "items") = false →
      getRecentProjectsFrom j = []) := by
  refine ⟨?_, ?_, ?_, ?_, ?_⟩
  · intro h
    apply getFrom_items_not_arr
    have h1 : navO (navO (some j) "lastKnownMenubarData") "menus" = none :=
      navO_of_not_obj _ _ h
    unfold navFileMenuItems
    rw [h1]
    rfl
  · intro h
    apply getFrom_items_not_arr
    have h1 : navO (navO (navO (some j) "lastKnownMenubarData") "menus") "File" = none :=
      navO_of_not_obj _ _ h
    unfold navFileMenuItems
    rw [h1]
    rfl
  · intro h
    apply getFrom_items_not_arr
    unfold navFileMenuItems
    rw [navO_of_not_obj _ _ h]
    rfl
  · exact getFrom_items_not_arr j
  · intro xs pre r rest hnav hsplit hpre hr hsub
    obtain ⟨fs, rfl⟩ := isRecentMenuItem_ok_true_obj r hr
    have hfind : findE isRecentMenuItem xs = Except.ok (some (JSON.obj fs)) := by
      rw [hsplit]
      exact findE_first isRecentMenuItem pre _ rest hpre hr
    rw [getRecentProjectsFrom, extract_eq_processRecent j xs _ hnav hfind]
    exact processRecent_no_items fs hsub

theorem extract_guards_every_navigation_step_check :
    getRecentProjectsFrom (JSON.obj [("lastKnownMenubarData", JSON.str "bogus")]) = [] ∧
    getRecentProjectsFrom (sampleStorageOf [recentMenuNoSubmenu]) = [] := by
  constructor
  · exact (extract_guards_every_navigation_step _).1 rfl
  · exact (extract_guards_every_navigation_step _).2.2.2.2
      [recentMenuNoSubmenu] [] recentMenuNoSubmenu [] rfl rfl (by simp) rfl rfl

/-- C4: the extraction selects the first File-menu item whose `id` equals
exactly "submenuitem.MenubarRecentMenu" and whose `label` equals exactly
"Open &&Recent" (the ampersand-escaped literal; no other variant matches);
if no item matches, or the selected item has no `submenu.items` array, the
extraction returns the empty list. -/
theorem extract_selects_first_exact_literal_match (j : JSON) :
    (∀ fs, isRecentMenuItem (JSON.obj fs) = Except.ok true ↔
      (JSON.lookupField fs "id" = some (JSON.str "submenuitem.MenubarRecentMenu") ∧
       JSON.lookupField fs "label" = some (JSON.str "Open &&Recent"))) ∧
    (∀ xs pre r rest, navFileMenuItems j = some (JSON.arr xs) →
      xs = pre ++ r :: rest →
      (∀ x ∈ pre, isRecentMenuItem x = Except.ok false) →
      isRecentMenuItem r = Except.ok true →
      findE isRecentMenuItem xs = Except.ok (some r) ∧
        getRecentProjectsFrom j = runExtract (processRecentMenuItem (some r))) ∧
    (∀ xs, navFileMenuItems j = some (JSON.arr xs) →
      (∀ x ∈ xs, isRecentMenuItem x = Except.ok false) →
      getRecentProjectsFrom j = []) ∧
    (∀ xs pre r rest, navFileMenuItems j = some (JSON.arr xs) →
      xs = pre ++ r :: rest →
      (∀ x ∈ pre, isRecentMenuItem x = Except.ok false) →
      isRecentMenuItem r = Except.ok true →
      isArrO (navO (navO (some r) "submenu") "items") = false →
      getRecentProjectsFrom j = []) := by
  refine ⟨isRecentMenuItem_obj_iff, ?_, ?_, ?_⟩
  · intro xs pre r rest hnav hsplit hpre hr
    have hfind : findE isRecentMenuItem xs = Except.ok (some r) := by
      rw [hsplit]
      exact findE_first isRecentMenuItem pre r rest hpre hr
    exact ⟨hfind, by
      rw [getRecentProjectsFrom, extract_eq_processRecent j xs _ hnav hfind]⟩
  · intro xs hnav hall
    have hfind : findE isRecentMenuItem xs = Except.ok none :=
      findE_of_all_false isRecentMenuItem xs hall
    rw [getRecentProjectsFrom, extract_eq_processRecent j xs none hnav hfind]
    rfl
  · intro xs pre r rest hnav hsplit hpre hr hsub
    obtain ⟨fs, rfl⟩ := isRecentMenuItem_ok_true_obj r hr
    have hfind : findE isRecentMenuItem xs = Except.ok (some (JSON.obj fs)) := by
      rw [hsplit]
      exact findE_first isRecentMenuItem pre _ rest hpre hr
    rw [getRecentProjectsFrom, extract_eq_processRecent j xs _ hnav hfind]
    exact processRecent_no_items fs hsub

theorem extract_selects_first_exact_literal_match_check :
    (isRecentMenuItem itemOtherMenu = Except.ok false) ∧
    findE isRecentMenuItem [itemOtherMenu, sampleRecentMenu [itemAlice]] =
      Except.ok (some (sampleRecentMenu [itemAlice])) ∧
    getRecentProjectsFrom (sampleStorageOf [itemOtherMenu]) = [] := by
  have h2 := (extract_selects_first_exact_literal_match
      (sampleStorageOf [itemOtherMenu, sampleRecentMenu [itemAlice]])).2.1
      [itemOtherMenu, sampleRecentMenu [itemAlice]] [itemOtherMenu]
      (sampleRecentMenu [itemAlice]) [] rfl rfl
      (by intro x hx; rw [List.mem_singleton] at hx; subst hx; rfl) rfl
  have h3 := (extract_selects_first_exact_literal_match
      (sampleStorageOf [itemOtherMenu])).2.2.1 [itemOtherMenu] rfl
      (by intro x hx; rw [List.mem_singleton] at hx; subst hx; rfl)
  exact ⟨rfl, h2.1, h3⟩

/-- C2: for every well-formed `submenu.items` sequence, the extraction output
is exactly the items whose `id` equals "openRecentFolder" and whose `uri` is
present and an object (string-valued or absent `uri` dropped), in the original
relative order, with no sorting, deduplication or cap: the output is literally
the filter of the input list mapped through the projection. -/
theorem extract_output_is_filter_map (j : JSON) (xs pre : List JSON) (r : JSON)
    (rest ys : List JSON)
    (hnav : navFileMenuItems j = some (JSON.arr xs))
    (hsplit : xs = pre ++ r :: rest)
    (hpre : ∀ x ∈ pre, isRecentMenuItem x = Except.ok false)
    (hr : isRecentMenuItem r = Except.ok true)
    (hsub : navO (navO (some r) "submenu") "items" = some (JSON.arr ys))
    (hwf : ∀ y ∈ ys, wfItem y = true) :
    getRecentProjectsFrom j = (ys.filter keepItem).map mkRecentProject := by
  rw [getFrom_eq_processItems j xs pre r rest ys hnav hsplit hpre hr hsub,
    processItems_wf ys hwf]
  rfl

theorem extract_output_is_filter_map_check :
    getRecentProjectsFrom (sampleStorage [itemAlice, itemWrongId, itemStringUri, itemAlice]) =
      ([itemAlice, itemWrongId, itemStringUri, itemAlice].filter keepItem).map
        mkRecentProject :=
  extract_output_is_filter_map
    (sampleStorage [itemAlice, itemWrongId, itemStringUri, itemAlice])
    [sampleRecentMenu [itemAlice, itemWrongId, itemStringUri, itemAlice]] []
    (sampleRecentMenu [itemAlice, itemWrongId, itemStringUri, itemAlice]) []
    [itemAlice, itemWrongId, itemStringUri, itemAlice]
    rfl rfl (by simp) rfl rfl (by decide)

/-- C3: each item surviving the filters produces a RecentProject whose `path`
and `uri` fields are both the item's `uri.path` value verbatim (no decoding,
no scheme stripping) and whose `label` is the last '/'-separated segment of
the item's `label`; that RecentProject appears in the extraction output. -/
theorem surviving_item_maps_verbatim (j : JSON) (xs pre : List JSON) (r : JSON)
    (rest ys : List JSON) (y : JSON) (p l : String)
    (hnav : navFileMenuItems j = some (JSON.arr xs))
    (hsplit : xs = pre ++ r :: rest)
    (hpre : ∀ x ∈ pre, isRecentMenuItem x = Except.ok false)
    (hr : isRecentMenuItem r = Except.ok true)
    (hsub : navO (navO (some r) "submenu") "items" = some (JSON.arr ys))
    (hwf : ∀ y ∈ ys, wfItem y = true)
    (hy : y ∈ ys) (hkeep : keepItem y = true)
    (hpath : uriPath y = some (JSON.str p))
    (hlab : labelOf y = some (JSON.str l)) :
    mkRecentProject y ∈ getRecentProjectsFrom j ∧
      mkRecentProject y =
        { uri := some (JSON.str p), label := jsLastSegment l,
          path := some (JSON.str p) } := by
  constructor
  · rw [getFrom_eq_processItems j xs pre r rest ys hnav hsplit hpre hr hsub,
      processItems_wf ys hwf]
    exact List.mem_map_of_mem mkRecentProject (List.mem_filter_of_mem hy hkeep)
  · simp [mkRecentProject, hpath, hlab]

theorem surviving_item_maps_verbatim_check :
    mkRecentProject itemAlice ∈ getRecentProjectsFrom (sampleStorage [itemAlice]) ∧
      mkRecentProject itemAlice =
        { uri := some (JSON.str "/Users/alice/dev/proj"), label := "proj",
          path := some (JSON.str "/Users/alice/dev/proj") } := by
  have h := surviving_item_maps_verbatim (sampleStorage [itemAlice])
    [sampleRecentMenu [itemAlice]] [] (sampleRecentMenu [itemAlice]) [] [itemAlice]
    itemAlice "/Users/alice/dev/proj" "alice/dev/proj"
    rfl rfl (by simp) rfl rfl (by decide) (by simp) rfl rfl rfl
  exact ⟨h.1, h.2⟩

/-- C10: if any item that passes both the id filter and the uri filter has a
`label` that is not a string (absent or of another type), the exception thrown
while mapping that item is caught at the outer boundary and the entire
extraction returns the empty list, discarding all entries. -/
theorem nonstring_label_discards_all (j : JSON) (xs pre : List JSON) (r : JSON)
    (rest ys : List JSON) (y : JSON)
    (hnav : navFileMenuItems j = some (JSON.arr xs))
    (hsplit : xs = pre ++ r :: rest)
    (hpre : ∀ x ∈ pre, isRecentMenuItem x = Except.ok false)
    (hr : isRecentMenuItem r = Except.ok true)
    (hsub : navO (navO (some r) "submenu") "items" = some (JSON.arr ys))
    (hnn : ∀ x ∈ ys, isNull x = false)
    (hy : y ∈ ys)
    (hid : idIsOpenRecentFolder y = true)
    (huri : hasObjectUriB y = true)
    (hlab : isStrO (labelOf y) = false) :
    getRecentProjectsFrom j = [] := by
  rw [getFrom_eq_processItems j xs pre r rest ys hnav hsplit hpre hr hsub]
  have h1 : filterE isOpenRecentFolder ys = Except.ok (ys.filter idIsOpenRecentFolder) :=
    filterE_pure _ _ _ (fun x hx => isOpenRecentFolder_pure x (hnn x hx))
  have h2 : filterE hasObjectUri (ys.filter idIsOpenRecentFolder) =
      Except.ok ((ys.filter idIsOpenRecentFolder).filter hasObjectUriB) :=
    filterE_pure _ _ _ (fun x hx =>
      hasObjectUri_pure x (hnn x (List.mem_of_mem_filter hx)))
  have hy2 : y ∈ (ys.filter idIsOpenRecentFolder).filter hasObjectUriB :=
    List.mem_filter_of_mem (List.mem_filter_of_mem hy hid) huri
  have h3 : mapE toRecentProject ((ys.filter idIsOpenRecentFolder).filter hasObjectUriB) =
      Except.error () :=
    mapE_error_of_mem _ _ y hy2 (toRecentProject_error y (hnn y hy) huri hlab)
  simp only [processItems, h1, h2, h3, runExtract]

theorem nonstring_label_discards_all_check :
    getRecentProjectsFrom (sampleStorage [itemAlice, itemNoLabel]) = [] :=
  nonstring_label_discards_all (sampleStorage [itemAlice, itemNoLabel])
    [sampleRecentMenu [itemAlice, itemNoLabel]] []
    (sampleRecentMenu [itemAlice, itemNoLabel]) [] [itemAlice, itemNoLabel]
    itemNoLabel rfl rfl (by simp) rfl rfl (by decide) (by simp) rfl rfl rfl

/-- C5 counterexample: on this storage document the extraction output contains
a RecentProject whose `path` is the empty string, refuting the claim that every
output `path` is a non-empty filesystem path string. -/
theorem output_path_empty_string_counterexample :
    getRecentProjectsFrom (sampleStorage [itemEmptyPath]) =
      [{ uri := some (JSON.str ""), label := "", path := some (JSON.str "") }] := rfl

/-- C5 (amended): every RecentProject in the output carries its source item's
`uri.path` value verbatim, so when every surviving item's `uri.path` is a
non-empty string, every `path` in the output is a non-empty string. -/
theorem output_paths_nonempty_under_nonempty_sources (j : JSON) (xs pre : List JSON)
    (r : JSON) (rest ys : List JSON)
    (hnav : navFileMenuItems j = some (JSON.arr xs))
    (hsplit : xs = pre ++ r :: rest)
    (hpre : ∀ x ∈ pre, isRecentMenuItem x = Except.ok false)
    (hr : isRecentMenuItem r = Except.ok true)
    (hsub : navO (navO (some r) "submenu") "items" = some (JSON.arr ys))
    (hwf : ∀ y ∈ ys, wfItem y = true)
    (hne : ∀ y ∈ ys, keepItem y = true → isNonemptyStrO (uriPath y) = true) :
    ∀ rp ∈ getRecentProjectsFrom j, isNonemptyStrO rp.path = true := by
  intro rp hrp
  rw [getFrom_eq_processItems j xs pre r rest ys hnav hsplit hpre hr hsub,
    processItems_wf ys hwf] at hrp
  have hrp2 : rp ∈ (ys.filter keepItem).map mkRecentProject := hrp
  rw [List.mem_map] at hrp2
  obtain ⟨y, hy, rfl⟩ := hrp2
  have hyin : y ∈ ys := List.mem_of_mem_filter hy
  have hyk : keepItem y = true := List.of_mem_filter hy
  exact hne y hyin hyk

theorem output_paths_nonempty_under_nonempty_sources_check :
    isNonemptyStrO (RecentProject.path
      (RecentProject.mk (some (JSON.str "/Users/alice/dev/proj")) "proj"
        (some (JSON.str "/Users/alice/dev/proj")))) = true :=
  output_paths_nonempty_under_nonempty_sources (sampleStorage [itemAlice])
    [sampleRecentMenu [itemAlice]] [] (sampleRecentMenu [itemAlice]) [] [itemAlice]
    rfl rfl (by simp) rfl rfl (by decide) (by decide)
    (RecentProject.mk (some (JSON.str "/Users/alice/dev/proj")) "proj"
      (some (JSON.str "/Users/alice/dev/proj")))
    (List.mem_singleton.mpr rfl)

/-- C6 counterexample: both items survive the filters, one of them has no
`label` field; the extraction returns the empty list, so neither the produced
RecentProject with label "" nor the other surviving item is present in the
output, refuting the claim for absent labels. -/
theorem absent_label_empties_output_counterexample :
    keepItem itemNoLabel = true ∧ keepItem itemAlice = true ∧
      getRecentProjectsFrom (sampleStorage [itemAlice, itemNoLabel]) = [] :=
  ⟨rfl, rfl, rfl⟩

/-- C6 (amended): for every item that survives the id and uri filters whose
`label` field is the empty string, the produced RecentProject has label equal
to the empty string and appears in the output, and every other surviving
(well-formed) item is still present in the output. An item whose `label` is
absent instead empties the whole output. -/
theorem empty_label_maps_to_empty_string (j : JSON) (xs pre : List JSON) (r : JSON)
    (rest ys : List JSON) (y : JSON)
    (hnav : navFileMenuItems j = some (JSON.arr xs))
    (hsplit : xs = pre ++ r :: rest)
    (hpre : ∀ x ∈ pre, isRecentMenuItem x = Except.ok false)
    (hr : isRecentMenuItem r = Except.ok true)
    (hsub : navO (navO (some r) "submenu") "items" = some (JSON.arr ys))
    (hwf : ∀ y ∈ ys, wfItem y = true)
    (hy : y ∈ ys) (hkeep : keepItem y = true)
    (hlab : labelOf y = some (JSON.str "")) :
    (mkRecentProject y ∈ getRecentProjectsFrom j ∧ (mkRecentProject y).label = "") ∧
    (∀ z ∈ ys, keepItem z = true → mkRecentProject z ∈ getRecentProjectsFrom j) := by
  have hout : getRecentProjectsFrom j = (ys.filter keepItem).map mkRecentProject := by
    rw [getFrom_eq_processItems j xs pre r rest ys hnav hsplit hpre hr hsub,
      processItems_wf ys hwf]
    rfl
  refine ⟨⟨?_, ?_⟩, ?_⟩
  · rw [hout]
    exact List.mem_map_of_mem mkRecentProject (List.mem_filter_of_mem hy hkeep)
  · simp only [mkRecentProject, hlab]
    decide
  · intro z hz hkz
    rw [hout]
    exact List.mem_map_of_mem mkRecentProject (List.mem_filter_of_mem hz hkz)

theorem empty_label_maps_to_empty_string_check :
    (mkRecentProject itemEmptyLabel ∈
        getRecentProjectsFrom (sampleStorage [itemAlice, itemEmptyLabel]) ∧
      (mkRecentProject itemEmptyLabel).label = "") ∧
    mkRecentProject itemAlice ∈
      getRecentProjectsFrom (sampleStorage [itemAlice, itemEmptyLabel]) := by
  have h := empty_label_maps_to_empty_string (sampleStorage [itemAlice, itemEmptyLabel])
    [sampleRecentMenu [itemAlice, itemEmptyLabel]] []
    (sampleRecentMenu [itemAlice, itemEmptyLabel]) [] [itemAlice, itemEmptyLabel]
    itemEmptyLabel rfl rfl (by simp) rfl rfl (by decide) (by simp) rfl rfl
  exact ⟨h.1, h.2 itemAlice (by simp) rfl⟩

/-- C7: when the storage file does not exist, the reader returns absence, the
extraction result is the empty list, and the command renders the empty-state
view; a present file that yields no recent projects leads to the identical
command state, so the two are indistinguishable. -/
theorem absent_file_renders_empty_state (jsonParse : String → Except Unit JSON)
    (raw : String) :
    getRecentProjects none jsonParse = [] ∧
    renderCommand (commandStateAfterEffect none jsonParse) =
      RenderedView.emptyView "最近使用したプロジェクトがありません"
        "Windsurfでプロジェクトを開くと、ここに表示されます" ∧
    (getRecentProjects (some raw) jsonParse = [] →
      commandStateAfterEffect (some raw) jsonParse =
        commandStateAfterEffect none jsonParse) := by
  refine ⟨rfl, rfl, ?_⟩
  intro h
  unfold commandStateAfterEffect
  rw [h]
  rfl

theorem absent_file_renders_empty_state_check :
    getRecentProjects none (parseConst JSON.null) = [] ∧
    commandStateAfterEffect (some "null") (parseConst JSON.null) =
      commandStateAfterEffect none (parseConst JSON.null) := by
  have h := absent_file_renders_empty_state (parseConst JSON.null) "null"
  exact ⟨h.1, h.2.2 rfl⟩

/-- C8: if the external launch succeeds, the launcher shows the success toast
and then closes the main window; if it fails, it shows the failure toast, never
calls closeMainWindow, and (being a total function into an effect trace)
propagates no exception to the caller. -/
theorem launcher_toast_and_close_behaviour (execResult : String → Except Unit Unit)
    (projectPath : String) :
    (execResult (windsurfOpenCommand projectPath) = Except.ok () →
      openProjectInWindsurf execResult projectPath =
        [Effect.execCommand (windsurfOpenCommand projectPath),
         Effect.toastSuccess "プロジェクトを開きました",
         Effect.closeMainWindow]) ∧
    (execResult (windsurfOpenCommand projectPath) = Except.error () →
      openProjectInWindsurf execResult projectPath =
        [Effect.execCommand (windsurfOpenCommand projectPath),
         Effect.toastFailure "エラー" "プロジェクトを開けませんでした"] ∧
      Effect.closeMainWindow ∉ openProjectInWindsurf execResult projectPath) := by
  constructor
  · intro h
    unfold openProjectInWindsurf
    rw [h]
  · intro h
    unfold openProjectInWindsurf
    rw [h]
    refine ⟨rfl, ?_⟩
    simp

theorem launcher_toast_and_close_behaviour_check :
    openProjectInWindsurf execAlwaysOk "/tmp/proj" =
      [Effect.execCommand (windsurfOpenCommand "/tmp/proj"),
       Effect.toastSuccess "プロジェクトを開きました",
       Effect.closeMainWindow] ∧
    (openProjectInWindsurf execAlwaysFails "/tmp/proj" =
      [Effect.execCommand (windsurfOpenCommand "/tmp/proj"),
       Effect.toastFailure "エラー" "プロジェクトを開けませんでした"] ∧
      Effect.closeMainWindow ∉ openProjectInWindsurf execAlwaysFails "/tmp/proj") :=
  ⟨(launcher_toast_and_close_behaviour execAlwaysOk "/tmp/proj").1 rfl,
   (launcher_toast_and_close_behaviour execAlwaysFails "/tmp/proj").2 rfl⟩

/-- C9: for every path string, the shell command the launcher executes is
exactly the raw concatenation of the literal prefix, the path verbatim (no
escaping of shell metacharacters, including embedded double quotes) and a
closing double quote. -/
theorem launcher_command_is_raw_interpolation (execResult : String → Except Unit Unit)
    (projectPath : String) :
    (openProjectInWindsurf execResult projectPath).head? =
      some (Effect.execCommand ("open -a Windsurf \"" ++ projectPath ++ "\"")) := by
  unfold openProjectInWindsurf windsurfOpenCommand
  cases execResult ("open -a Windsurf \"" ++ projectPath ++ "\"") <;> rfl
